import Mathlib

/-!
Verification of the sphinx-api-relink repository against its specification.

The development shallowly embeds the functions of
src/sphinx_api_relink/helpers.py and src/sphinx_api_relink/linkcode.py.
External effects are made explicit:

* a git subprocess invocation is represented by a GitOutcome value
  (captured stdout on success, a nonzero exit, or a missing binary);
* the network is a function from URLs to HeadResponse values, and the
  unboundedly recursive redirect-following check is modelled with fuel
  (fuel is consumed only when a redirect is followed, so a result of
  none means the recursion exceeded the given redirect budget);
* the process-wide memoization of get_blob_url is an explicit
  association-list cache threaded through get_blob_url_cached;
* Python regular-expression matching (re.match) is embedded for the
  fragment used by the code and its documented remapping tables:
  literal characters, the any-character dot, and the star quantifier,
  anchored at the start of the subject and allowed to cover a proper
  initial segment only, exactly as re.match does.

The Python string primitives str.strip, str.lower, str.split and
slicing are implemented here over the character list of a String, so
that every definition evaluates inside the kernel.
-/

namespace SphinxApiRelink

/-- Embedding of str.strip with no argument: drop ASCII whitespace from
both ends of the string. -/
def pyStrip (s : String) : String :=
  ⟨((s.data.dropWhile Char.isWhitespace).reverse.dropWhile Char.isWhitespace).reverse⟩

/-- Embedding of str.lower, restricted to the ASCII range that package
names and version numbers use. -/
def pyLower (s : String) : String :=
  ⟨s.data.map Char.toLower⟩

/-- Embedding of the slice s[:n], counting code points. -/
def pyTake (s : String) (n : Nat) : String :=
  ⟨s.data.take n⟩

/-- Splits a character list at every occurrence of a single-character
separator, like str.split with a one-character argument. -/
def splitChar (sep : Char) : List Char → List (List Char)
  | [] => [[]]
  | c :: cs =>
      if c = sep then [] :: splitChar sep cs
      else
        match splitChar sep cs with
        | [] => [[c]]
        | g :: gs => (c :: g) :: gs

/-- Outcome of running a git subprocess: captured stdout on success, a
nonzero exit status (subprocess.CalledProcessError under check=True),
or a missing git executable (FileNotFoundError). -/
inductive GitOutcome where
  | success (stdout : String)
  | calledProcessError
  | fileNotFoundError
deriving DecidableEq

/-- Python exceptions that the git helpers can let escape. -/
inductive GitError where
  | calledProcessError
  | fileNotFoundError
deriving DecidableEq

/-- Embedding of helpers._get_commit_sha: runs git rev-parse HEAD with
check=True and no exception handler, strips the output and keeps the
first seven characters; both a nonzero exit and a missing binary
propagate. -/
def _get_commit_sha (o : GitOutcome) : Except GitError String :=
  match o with
  | .success stdout => .ok (pyTake (pyStrip stdout) 7)
  | .calledProcessError => .error .calledProcessError
  | .fileNotFoundError => .error .fileNotFoundError

/-- Embedding of helpers._get_latest_tag: runs git describe --tags
--exact-match, catching only subprocess.CalledProcessError (which it
turns into no value); a missing binary propagates. -/
def _get_latest_tag (o : GitOutcome) : Except GitError (Option String) :=
  match o with
  | .success stdout => .ok (some (pyStrip stdout))
  | .calledProcessError => .ok none
  | .fileNotFoundError => .error .fileNotFoundError

/-- Embedding of helpers._get_branch: runs git rev-parse --abbrev-ref
HEAD with check=True and no exception handler, returning no value only
for the detached-HEAD output; a nonzero exit and a missing binary both
propagate. -/
def _get_branch (o : GitOutcome) : Except GitError (Option String) :=
  match o with
  | .success stdout =>
      if pyStrip stdout = "HEAD" then .ok none else .ok (some (pyStrip stdout))
  | .calledProcessError => .error .calledProcessError
  | .fileNotFoundError => .error .fileNotFoundError

/-- C7 counterexample: the branch query does not recover from missing
repository metadata (a nonzero git exit propagates as an error rather
than yielding no value), and the tag query does not recover from a
missing git binary; both contradict the claim that the tag and branch
queries recover locally from absence of the tool or of repository
metadata. -/
theorem git_query_recovery_counterexample :
    _get_branch GitOutcome.calledProcessError ≠ Except.ok none ∧
    _get_branch GitOutcome.calledProcessError
      = Except.error GitError.calledProcessError ∧
    _get_latest_tag GitOutcome.fileNotFoundError ≠ Except.ok none ∧
    _get_latest_tag GitOutcome.fileNotFoundError
      = Except.error GitError.fileNotFoundError := by
  refine ⟨?_, rfl, ?_, rfl⟩ <;>
    intro h <;> simp [_get_branch, _get_latest_tag] at h

/-- C7 (amended): error model of the three source-control queries. The
commit query propagates both a nonzero exit and a missing binary; the
tag query recovers a nonzero exit (untagged commit or missing
repository metadata) as no value but propagates a missing binary; the
branch query recovers only detached HEAD as no value and propagates
both a nonzero exit and a missing binary. -/
theorem git_query_error_model :
    _get_commit_sha (GitOutcome.success "abc123def\n") = Except.ok "abc123d" ∧
    _get_commit_sha GitOutcome.calledProcessError
      = Except.error GitError.calledProcessError ∧
    _get_commit_sha GitOutcome.fileNotFoundError
      = Except.error GitError.fileNotFoundError ∧
    _get_latest_tag (GitOutcome.success "v1.0.0\n") = Except.ok (some "v1.0.0") ∧
    _get_latest_tag GitOutcome.calledProcessError = Except.ok none ∧
    _get_latest_tag GitOutcome.fileNotFoundError
      = Except.error GitError.fileNotFoundError ∧
    _get_branch (GitOutcome.success "HEAD\n") = Except.ok none ∧
    _get_branch (GitOutcome.success "feature\n") = Except.ok (some "feature") ∧
    _get_branch GitOutcome.calledProcessError
      = Except.error GitError.calledProcessError ∧
    _get_branch GitOutcome.fileNotFoundError
      = Except.error GitError.fileNotFoundError := by
  refine ⟨?_, rfl, rfl, ?_, rfl, rfl, ?_, ?_, rfl, rfl⟩ <;>
    simp [_get_commit_sha, _get_latest_tag, _get_branch, pyStrip, pyTake]

/-- Environment seen by one run of the probing chain: the outcomes of
the three git subprocesses that linkcode.get_blob_url invokes. -/
structure GitEnv where
  sha : GitOutcome
  tag : GitOutcome
  branch : GitOutcome

/-- The loop body of linkcode.get_blob_url: walk the candidate list in
order, skip candidates that yielded no value, rebuild url for each
remaining candidate, return the first url the existence check accepts,
and otherwise fall through with the last built url. The Nat argument
counts how many existence checks have been issued. -/
def probeLoopCount (ue : String → Bool) (repo_url : String) :
    List (Option String) → String → Nat → String × Nat
  | [], url, n => (url, n)
  | none :: rest, url, n => probeLoopCount ue repo_url rest url n
  | some r :: rest, _, n =>
      let url := repo_url ++ "/blob/" ++ r
      if ue url then (url, n + 1) else probeLoopCount ue repo_url rest url (n + 1)

/-- The rev-is-falsy path of linkcode.get_blob_url: evaluate the three
git queries eagerly (list construction), then run the probing loop over
commit SHA, tag, branch, the literal master and the literal main,
starting from the default main url of line 137. -/
def probeAll (env : GitEnv) (ue : String → Bool) (repo_url : String) :
    Except GitError String × Nat :=
  match _get_commit_sha env.sha with
  | .error e => (.error e, 0)
  | .ok sha =>
    match _get_latest_tag env.tag with
    | .error e => (.error e, 0)
    | .ok tag =>
      match _get_branch env.branch with
      | .error e => (.error e, 0)
      | .ok branch =>
          let p := probeLoopCount ue repo_url
            [some sha, tag, branch, some "master", some "main"]
            (repo_url ++ "/blob/main") 0
          (.ok p.1, p.2)

/-- Embedding of linkcode.get_blob_url, instrumented with the number of
network existence checks performed. A rev argument is used directly
exactly when it is truthy in Python, that is, present and non-empty;
otherwise the probing chain runs. -/
def get_blob_url_run (env : GitEnv) (ue : String → Bool) (github_repo : String)
    (rev : Option String) : Except GitError String × Nat :=
  let repo_url := "https://github.com/" ++ github_repo
  match rev with
  | some r =>
      if r = "" then probeAll env ue repo_url
      else (.ok (repo_url ++ "/blob/" ++ r), 0)
  | none => probeAll env ue repo_url

/-- The value linkcode.get_blob_url returns (dropping the
instrumentation counter). -/
def get_blob_url (env : GitEnv) (ue : String → Bool) (github_repo : String)
    (rev : Option String) : Except GitError String :=
  (get_blob_url_run env ue github_repo rev).1

/-- The url the probing loop falls through with when no candidate is
accepted: the url built from the last candidate that yielded a value,
or the incoming default when none did. -/
def lastUrl (repo_url : String) : List (Option String) → String → String
  | [], url => url
  | none :: rest, url => lastUrl repo_url rest url
  | some r :: rest, _ => lastUrl repo_url rest (repo_url ++ "/blob/" ++ r)

/-- The probing loop returns the first candidate url accepted by the
existence check, in list order, and falls back to the url of the last
candidate when none is accepted. -/
theorem probeLoopCount_first_accepted (ue : String → Bool) (repo_url : String) :
    ∀ (cands : List (Option String)) (url : String) (n : Nat),
      (probeLoopCount ue repo_url cands url n).1 =
        ((((cands.filterMap id).map (fun r => repo_url ++ "/blob/" ++ r)).find? ue).getD
          (lastUrl repo_url cands url))
  | [], url, n => by simp [probeLoopCount, lastUrl]
  | none :: rest, url, n => by
      simpa [probeLoopCount, lastUrl] using
        probeLoopCount_first_accepted ue repo_url rest url n
  | some r :: rest, url, n => by
      by_cases h : ue (repo_url ++ "/blob/" ++ r) <;>
        simp [probeLoopCount, lastUrl, List.find?, h,
          probeLoopCount_first_accepted ue repo_url rest (repo_url ++ "/blob/" ++ r) (n + 1)]

/-- C1: with no explicit revision, get_blob_url probes the candidate
refs in the order current commit SHA, exact-match tag, current branch,
the literal master, the literal main; candidates that yielded no value
are skipped; the url of the first candidate the existence check
confirms is returned, and when none is confirmed the url built from the
final literal main candidate is returned. -/
theorem get_blob_url_probe_order (env : GitEnv) (ue : String → Bool)
    (github_repo sha : String) (tag branch : Option String)
    (hs : _get_commit_sha env.sha = Except.ok sha)
    (ht : _get_latest_tag env.tag = Except.ok tag)
    (hb : _get_branch env.branch = Except.ok branch) :
    get_blob_url env ue github_repo none =
      Except.ok (((([some sha, tag, branch, some "master", some "main"].filterMap id).map
          (fun r => "https://github.com/" ++ github_repo ++ "/blob/" ++ r)).find? ue).getD
        ("https://github.com/" ++ github_repo ++ "/blob/main")) := by
  simp only [get_blob_url, get_blob_url_run, probeAll, hs, ht, hb]
  rw [probeLoopCount_first_accepted]
  congr 1
  have hm : ("/blob/" ++ "main" : String) = "/blob/main" := rfl
  cases tag <;> cases branch <;> simp [lastUrl, String.append_assoc, hm]

/-- C1 witness: a repository on branch feature with an untagged commit
whose SHA url and master url do not exist but whose branch url does;
the resolver returns the branch url, third in the probing order. -/
theorem get_blob_url_probe_order_witness :
    get_blob_url
      ⟨GitOutcome.success "abcdef12345\n", GitOutcome.calledProcessError,
        GitOutcome.success "feature\n"⟩
      (fun u => u = "https://github.com/org/repo/blob/feature")
      "org/repo" none
      = Except.ok "https://github.com/org/repo/blob/feature" := by
  have h := get_blob_url_probe_order
    ⟨GitOutcome.success "abcdef12345\n", GitOutcome.calledProcessError,
      GitOutcome.success "feature\n"⟩
    (fun u => u = "https://github.com/org/repo/blob/feature")
    "org/repo" "abcdef1" none (some "feature")
    (by simp [_get_commit_sha, pyStrip, pyTake]) rfl
    (by simp [_get_branch, pyStrip])
  rw [h]
  simp

/-- C2 counterexample: supplying the empty string as the explicit
revision does not return a url ending in the empty revision and is not
network-free; the probing chain runs (three existence checks here) and
the fallback main url is returned. -/
theorem get_blob_url_explicit_rev_counterexample :
    get_blob_url_run
        ⟨GitOutcome.success "abcdef12345", GitOutcome.calledProcessError,
          GitOutcome.success "HEAD"⟩
        (fun _ => false) "org/repo" (some "")
      = (Except.ok "https://github.com/org/repo/blob/main", 3) ∧
    "https://github.com/org/repo/blob/main"
      ≠ "https://github.com/org/repo" ++ "/blob/" ++ "" ∧
    (3 : Nat) ≠ 0 := by
  refine ⟨?_, by decide, by decide⟩
  rfl

/-- C2 (amended): for every repository identifier and every non-empty
explicit revision string, get_blob_url returns the base url ending in
the revision immediately: the result does not depend on the git
environment or on the network oracle, and zero existence checks are
issued. -/
theorem get_blob_url_explicit_rev (env : GitEnv) (ue : String → Bool)
    (github_repo r : String) (h : r ≠ "") :
    get_blob_url_run env ue github_repo (some r)
      = (Except.ok ("https://github.com/" ++ github_repo ++ "/blob/" ++ r), 0) := by
  simp [get_blob_url_run, h]

/-- C2 witness: an explicit tag revision is used verbatim with no
probing, whatever the git environment and the network would answer. -/
theorem get_blob_url_explicit_rev_witness :
    get_blob_url_run
        ⟨GitOutcome.fileNotFoundError, GitOutcome.fileNotFoundError,
          GitOutcome.fileNotFoundError⟩
        (fun _ => false) "org/repo" (some "v1.0")
      = (Except.ok "https://github.com/org/repo/blob/v1.0", 0) := by
  have h := get_blob_url_explicit_rev
    ⟨GitOutcome.fileNotFoundError, GitOutcome.fileNotFoundError,
      GitOutcome.fileNotFoundError⟩
    (fun _ => false) "org/repo" "v1.0" (by decide)
  rw [h]
  rfl

/-- C10: the empty string, the host extension default for the
api_linkcode_rev option, is falsy in Python, so get_blob_url treats it
exactly like an absent revision: the probing chain runs and both the
result and the number of existence checks coincide with the
no-revision call. -/
theorem get_blob_url_empty_rev_probes (env : GitEnv) (ue : String → Bool)
    (github_repo : String) :
    get_blob_url_run env ue github_repo (some "")
      = get_blob_url_run env ue github_repo none := by
  simp [get_blob_url_run]

/-- Lookup in the memoization table of get_blob_url, keyed like
functools.cache by the argument pair of repository identifier and
explicit revision. -/
def cacheLookup : List ((String × Option String) × String) →
    String × Option String → Option String
  | [], _ => none
  | (k, v) :: rest, key => if k = key then some v else cacheLookup rest key

/-- Embedding of the functools.cache decoration on get_blob_url: the
per-process memoization table is threaded explicitly. A hit is returned
without running anything (zero existence checks); a miss runs the
resolver and, as functools.cache does, records the result only when no
exception escapes. -/
def get_blob_url_cached (env : GitEnv) (ue : String → Bool)
    (c : List ((String × Option String) × String)) (github_repo : String)
    (rev : Option String) :
    Except GitError String × List ((String × Option String) × String) × Nat :=
  match cacheLookup c (github_repo, rev) with
  | some u => (.ok u, c, 0)
  | none =>
      match get_blob_url_run env ue github_repo rev with
      | (.ok u, n) => (.ok u, ((github_repo, rev), u) :: c, n)
      | (.error e, n) => (.error e, c, n)

/-- C9: once a call with a given repository identifier and revision has
succeeded, a second call with the identical arguments returns the
identical string, leaves the memoization table unchanged and issues
zero network existence checks: it is served from the cache. -/
theorem get_blob_url_cached_idem (env : GitEnv) (ue : String → Bool)
    (c : List ((String × Option String) × String)) (github_repo : String)
    (rev : Option String) (u : String)
    (c' : List ((String × Option String) × String)) (n : Nat)
    (h : get_blob_url_cached env ue c github_repo rev = (Except.ok u, c', n)) :
    get_blob_url_cached env ue c' github_repo rev = (Except.ok u, c', 0) := by
  unfold get_blob_url_cached at h ⊢
  cases hl : cacheLookup c (github_repo, rev) with
  | none =>
      rw [hl] at h
      rcases hr : get_blob_url_run env ue github_repo rev with ⟨res, n0⟩
      rw [hr] at h
      cases res with
      | ok u0 =>
          simp only [Prod.mk.injEq, Except.ok.injEq] at h
          obtain ⟨hu, hc, hn⟩ := h
          subst hu
          subst hc
          simp [cacheLookup]
      | error e => simp at h
  | some u0 =>
      rw [hl] at h
      simp only [Prod.mk.injEq, Except.ok.injEq] at h
      obtain ⟨hu, hc, hn⟩ := h
      subst hu
      subst hc
      rw [hl]

/-- C9 witness: after a first successful call populated the table, the
repeated call with the same repository and revision is a pure cache hit
with zero existence checks. -/
theorem get_blob_url_cached_idem_witness :
    get_blob_url_cached
        ⟨GitOutcome.fileNotFoundError, GitOutcome.fileNotFoundError,
          GitOutcome.fileNotFoundError⟩
        (fun _ => false)
        [(("org/repo", some "v1.0"), "https://github.com/org/repo/blob/v1.0")]
        "org/repo" (some "v1.0")
      = (Except.ok "https://github.com/org/repo/blob/v1.0",
        [(("org/repo", some "v1.0"), "https://github.com/org/repo/blob/v1.0")], 0) :=
  get_blob_url_cached_idem
    ⟨GitOutcome.fileNotFoundError, GitOutcome.fileNotFoundError,
      GitOutcome.fileNotFoundError⟩
    (fun _ => false) [] "org/repo" (some "v1.0")
    "https://github.com/org/repo/blob/v1.0"
    [(("org/repo", some "v1.0"), "https://github.com/org/repo/blob/v1.0")] 0
    (by rfl)

/-- Answer of the network to one HEAD request: a status code together
with the optional Location header, or a raised
requests.RequestException. -/
inductive HeadResponse where
  | response (statusCode : Nat) (location : Option String)
  | requestException

/-- Embedding of linkcode._url_exists with a redirect budget: a
request exception yields false, a response without a Location header is
compared against status 400, and a response with a Location header
recursively checks the redirect target, consuming one unit of fuel.
Fuel is spent only on redirects, so a result of none means the
recursion followed more redirects than the given budget: the source
recursion has no bound at all. -/
def urlExistsFuel (net : String → HeadResponse) (fuel : Nat) (url : String) :
    Option Bool :=
  match net url with
  | .requestException => some false
  | .response code none => some (decide (code < 400))
  | .response _ (some redirect_url) =>
      match fuel with
      | 0 => none
      | f + 1 => urlExistsFuel net f redirect_url

/-- The check of linkcode._url_exists terminates on a url when some
finite redirect budget suffices. -/
def urlCheckHalts (net : String → HeadResponse) (url : String) : Prop :=
  ∃ fuel, (urlExistsFuel net fuel url).isSome

/-- Same recursion as urlExistsFuel, additionally counting the HEAD
requests issued. -/
def urlExistsCount (net : String → HeadResponse) (fuel : Nat) (url : String) :
    Option (Bool × Nat) :=
  match net url with
  | .requestException => some (false, 1)
  | .response code none => some (decide (code < 400), 1)
  | .response _ (some redirect_url) =>
      match fuel with
      | 0 => none
      | f + 1 => (urlExistsCount net f redirect_url).map (fun p => (p.1, p.2 + 1))

/-- The redirect chain starting at a url reaches a non-redirect answer
after finitely many hops. -/
inductive ChainHalts (net : String → HeadResponse) : String → Prop where
  | exc (url : String) : net url = HeadResponse.requestException → ChainHalts net url
  | done (url : String) (code : Nat) :
      net url = HeadResponse.response code none → ChainHalts net url
  | redir (url : String) (code : Nat) (loc : String) :
      net url = HeadResponse.response code (some loc) → ChainHalts net loc →
      ChainHalts net url

/-- C6: a network failure during the existence check is absorbed and
reported as url-does-not-exist, whatever the redirect budget; no
exception value exists in the result type, so nothing propagates to
the blob-url resolver. -/
theorem url_exists_absorbs_failure (net : String → HeadResponse) (fuel : Nat)
    (url : String) (h : net url = HeadResponse.requestException) :
    urlExistsFuel net fuel url = some false := by
  unfold urlExistsFuel
  rw [h]

/-- C6 witness: on a network where every request raises, the check on a
concrete url returns false even with a zero redirect budget. -/
theorem url_exists_absorbs_failure_witness :
    urlExistsFuel (fun _ => HeadResponse.requestException) 0
        "https://github.com/org/repo/blob/main"
      = some false :=
  url_exists_absorbs_failure (fun _ => HeadResponse.requestException) 0
    "https://github.com/org/repo/blob/main" rfl

/-- Helper for the C8 counterexample: on a network that redirects every
url to itself, no finite redirect budget makes the check answer. -/
theorem urlExistsFuel_self_redirect_none :
    ∀ fuel url, urlExistsFuel (fun _ => HeadResponse.response 301 (some "loop"))
      fuel url = none
  | 0, _ => rfl
  | fuel + 1, url => by
      unfold urlExistsFuel
      exact urlExistsFuel_self_redirect_none fuel "loop"

/-- C8 counterexample: on a two-hop redirect chain the check issues
three HEAD requests, following two redirects rather than at most one;
and on a self-redirecting url the check does not terminate for any
redirect budget, refuting termination for every response sequence. -/
theorem url_exists_redirect_counterexample :
    urlExistsCount
        (fun u => if u = "https://a" then HeadResponse.response 301 (some "https://b")
          else if u = "https://b" then HeadResponse.response 301 (some "https://c")
          else HeadResponse.response 200 none)
        10 "https://a"
      = some (true, 3) ∧
    (3 : Nat) > 2 ∧
    ¬ urlCheckHalts (fun _ => HeadResponse.response 301 (some "loop")) "loop" := by
  refine ⟨by rfl, by decide, ?_⟩
  rintro ⟨fuel, h⟩
  rw [urlExistsFuel_self_redirect_none fuel "loop"] at h
  simp at h

/-- C8 (amended): the existence check follows redirect Location
headers recursively with no depth bound; it terminates exactly when
the redirect chain starting at the url reaches a request failure or a
response without a Location header after finitely many hops, and on a
cyclic redirect chain it does not terminate. -/
theorem url_exists_halts_iff (net : String → HeadResponse) (url : String) :
    urlCheckHalts net url ↔ ChainHalts net url := by
  constructor
  · rintro ⟨fuel, h⟩
    induction fuel generalizing url with
    | zero =>
        cases hn : net url with
        | requestException => exact ChainHalts.exc url hn
        | response code loc =>
            cases loc with
            | none => exact ChainHalts.done url code hn
            | some l =>
                rw [urlExistsFuel, hn] at h
                simp at h
    | succ f ih =>
        cases hn : net url with
        | requestException => exact ChainHalts.exc url hn
        | response code loc =>
            cases loc with
            | none => exact ChainHalts.done url code hn
            | some l =>
                rw [urlExistsFuel, hn] at h
                exact ChainHalts.redir url code l hn (ih l h)
  · intro h
    induction h with
    | exc url hn => exact ⟨0, by rw [urlExistsFuel, hn]; rfl⟩
    | done url code hn => exact ⟨0, by rw [urlExistsFuel, hn]; rfl⟩
    | redir url code loc hn _ ih =>
        obtain ⟨fuel, hf⟩ := ih
        exact ⟨fuel + 1, by rw [urlExistsFuel, hn]; exact hf⟩

/-- One regex element against one character: the dot matches any
character, every other character matches itself. -/
def charMatchP (p c : Char) : Bool := p == '.' || p == c

/-- Embedding of Python re.match for the regex fragment the remapping
tables use (literal characters, the dot, the star quantifier): the
pattern is anchored at the start of the subject and may cover an
initial segment only, so a true result does not mean the whole subject
was consumed. -/
def reMatch (pat s : List Char) : Bool :=
  match pat, s with
  | [], _ => true
  | _ :: '*' :: ps, [] => reMatch ps []
  | p :: '*' :: ps, c :: cs =>
      reMatch ps (c :: cs) || (charMatchP p c && reMatch (p :: '*' :: ps) cs)
  | p :: ps, c :: cs => charMatchP p c && reMatch ps cs
  | _ :: _, [] => false
termination_by 2 * s.length + pat.length
decreasing_by
  all_goals simp [List.length_cons]
  all_goals omega

/-- re.match on the string level. -/
def regexMatch (pat s : String) : Bool := reMatch pat.data s.data

/-- Lookup in a Python dict modelled as an association list in
insertion order. -/
def assocFind {α : Type} : List (String × α) → String → Option α
  | [], _ => none
  | (k, v) :: rest, key => if k = key then some v else assocFind rest key

/-- The process-wide __VERSION_REMAPPING table: package name to an
ordered list of pattern-replacement pairs. -/
abbrev RemapTable := List (String × List (String × String))

/-- The for loop of helpers._remap_version: first pattern that
re.match accepts wins, in table order. -/
def remapLoop (version : String) : List (String × String) → Option String
  | [] => none
  | (pat, replacement) :: rest =>
      if regexMatch pat version then some replacement
      else remapLoop version rest

/-- Embedding of helpers._remap_version: try each registered pattern
for the package in order under re.match, and otherwise fall back to an
exact-key dict lookup of the version, defaulting to the version
itself. -/
def _remap_version (tbl : RemapTable) (package version : String) : String :=
  let remapping := (assocFind tbl package).getD []
  match remapLoop version remapping with
  | some replacement => replacement
  | none => (assocFind remapping version).getD version

/-- Environment of a pin lookup: the contents of the constraints file
when it exists, and the importlib view of installed packages (none
standing for PackageNotFoundError). -/
structure PinEnv where
  constraints : Option String
  installed : String → Option String

/-- Strip ASCII whitespace from both ends of a character list, like
str.strip with no argument. -/
def stripChars (cs : List Char) : List Char :=
  ((cs.dropWhile Char.isWhitespace).reverse.dropWhile Char.isWhitespace).reverse

/-- The per-line normalization of helpers._get_version_from_constraints:
drop everything from the first hash on, strip, lowercase. -/
def cleanLine (line : List Char) : List Char :=
  (stripChars ((splitChar '#' line).headD [])).map Char.toLower

/-- Splits a character list at every occurrence of the two-character
separator of constraint lines, like str.split with that argument. -/
def splitEqEq : List Char → List (List Char)
  | [] => [[]]
  | '=' :: '=' :: cs => [] :: splitEqEq cs
  | c :: cs =>
      match splitEqEq cs with
      | [] => [[c]]
      | g :: gs => (c :: g) :: gs

/-- The line loop of helpers._get_version_from_constraints: skip lines
that do not start with the (lowercased) package name, skip empty
lines, skip lines that do not split into exactly two segments around
the double equals sign, and return the stripped second segment of the
first remaining line. -/
def findInLines (pn : List Char) : List (List Char) → Option String
  | [] => none
  | line :: rest =>
      let l := cleanLine line
      if ¬ pn.isPrefixOf l then findInLines pn rest
      else if l = [] then findInLines pn rest
      else if (splitEqEq l).length = 2 then some ⟨stripChars ((splitEqEq l).getD 1 [])⟩
      else findInLines pn rest

/-- Embedding of helpers._get_version_from_constraints: when the
constraints file exists, scan its lines for the package. -/
def _get_version_from_constraints (env : PinEnv) (package_name : String) :
    Option String :=
  match env.constraints with
  | none => none
  | some constraints =>
      findInLines (pyLower package_name).data (splitChar '\n' constraints.data)

/-- Embedding of helpers.pin: lowercase the package name, consult the
constraints file, fall back to the installed version, fall back to the
literal stable, and pass every found version through the remapping
table. -/
def pin (env : PinEnv) (tbl : RemapTable) (package_name : String) : String :=
  let pn := pyLower package_name
  match _get_version_from_constraints env pn with
  | some installed_version => _remap_version tbl pn installed_version
  | none =>
      match env.installed pn with
      | some installed_version => _remap_version tbl pn installed_version
      | none => "stable"

/-- The dollar-anchored tail of the pin_minor regex: any run of
non-newline characters, where the anchor also accepts a single
trailing newline. -/
def tailOk (t : List Char) : Bool :=
  t.all (fun c => c != '\n') || (t.count '\n' == 1 && t.getLast? == some '\n')

/-- Embedding of the re.match against the MAJOR.MINOR pattern of
helpers.pin_minor: a nonempty digit run, a literal dot, a nonempty
digit run, captured as group one, followed by an arbitrary accepted
tail. -/
def matchMajorMinor (s : String) : Option String :=
  let cs := s.data
  let d1 := cs.takeWhile Char.isDigit
  match cs.dropWhile Char.isDigit with
  | '.' :: rest =>
      let d2 := rest.takeWhile Char.isDigit
      if d1 ≠ [] ∧ d2 ≠ [] ∧ tailOk (rest.dropWhile Char.isDigit) then
        some ⟨d1 ++ '.' :: d2⟩
      else none
  | _ => none

/-- Embedding of helpers.pin_minor: resolve the version through pin,
return stable unchanged, truncate to the captured MAJOR.MINOR group,
and raise ValueError when the pattern does not match. -/
def pin_minor (env : PinEnv) (tbl : RemapTable) (package_name : String) :
    Except String String :=
  let installed_version := pin env tbl package_name
  if installed_version = "stable" then .ok installed_version
  else
    match matchMajorMinor installed_version with
    | some m => .ok m
    | none => .error ("Could not find documentation for " ++ package_name ++ " v"
        ++ installed_version)

/-- Reading back the code point stored by Char.ofNatAux. -/
theorem toNat_ofNatAux (m : Nat) (h : m.isValidChar) :
    (Char.ofNatAux m h).toNat = m := by
  simp [Char.ofNatAux, Char.toNat, UInt32.toNat]

/-- Lowercasing a character twice is the same as lowercasing it once. -/
theorem char_toLower_idem (c : Char) : c.toLower.toLower = c.toLower := by
  unfold Char.toLower
  by_cases h : c.toNat ≥ 65 ∧ c.toNat ≤ 90
  · rw [if_pos h]
    have hv : (c.toNat + 32).isValidChar := Or.inl (by omega)
    have ht : (Char.ofNat (c.toNat + 32)).toNat = c.toNat + 32 := by
      unfold Char.ofNat
      rw [dif_pos hv]
      exact toNat_ofNatAux _ hv
    rw [if_neg (by rw [ht]; omega)]
  · rw [if_neg h, if_neg h]

/-- Lowercasing a string twice is the same as lowercasing it once, so
the lowercasing in pin composed with the one in
_get_version_from_constraints collapses. -/
theorem pyLower_idem (s : String) : pyLower (pyLower s) = pyLower s := by
  have hc : Char.toLower ∘ Char.toLower = Char.toLower := funext char_toLower_idem
  simp [pyLower, List.map_map, hc]

/-- The version a single constraints line contributes for a package
name: the stripped second segment around the double equals sign, when
the cleaned line starts with the name, is nonempty, and has exactly two
such segments. -/
def lineVersion (pn : List Char) (line : List Char) : Option String :=
  let l := cleanLine line
  if pn.isPrefixOf l ∧ l ≠ [] ∧ (splitEqEq l).length = 2 then
    some ⟨stripChars ((splitEqEq l).getD 1 [])⟩
  else none

/-- The constraints loop returns the contribution of the first line
that yields one. -/
theorem findInLines_eq_findSome? (pn : List Char) :
    ∀ lines : List (List Char),
      findInLines pn lines = lines.findSome? (lineVersion pn)
  | [] => rfl
  | line :: rest => by
      rw [List.findSome?_cons]
      have ih := findInLines_eq_findSome? pn rest
      unfold findInLines
      by_cases h1 : pn.isPrefixOf (cleanLine line)
      · by_cases h2 : cleanLine line = []
        · have hl : lineVersion pn line = none := by simp [lineVersion, h2]
          simp [h1, h2, hl, ih]
        · by_cases h3 : (splitEqEq (cleanLine line)).length = 2
          · have hl : lineVersion pn line
                = some ⟨stripChars ((splitEqEq (cleanLine line)).getD 1 [])⟩ := by
              simp [lineVersion, h1, h2, h3]
            simp [h1, h2, h3, hl]
          · have hl : lineVersion pn line = none := by simp [lineVersion, h3]
            simp [h1, h2, h3, hl, ih]
      · have hl : lineVersion pn line = none := by simp [lineVersion, h1]
        simp [h1, hl, ih]

/-- C3 counterexample: the constraints lookup matches lines whose name
merely starts with the queried package name, so with a manifest whose
lines all have the name-version shape, pin for numpy is intercepted by
the earlier numpy-stubs line and returns that line's version instead of
the numpy line's version. -/
theorem pin_prefix_interception_counterexample :
    pin ⟨some "numpy-stubs==1.0\nnumpy==1.24.3", fun _ => none⟩ [] "numpy"
      = "1.0" ∧
    ("1.0" : String) ≠ "1.24.3" := by
  exact ⟨by rfl, by decide⟩

/-- C3 (amended): pin returns the version segment of the first
comment-stripped, trimmed, lowercased manifest line that starts with
the lowercased package name and splits into exactly two segments
around the double equals sign, passed through the remapping table; the
match is by name prefix, not by exact name. -/
theorem pin_first_prefix_line (env : PinEnv) (tbl : RemapTable)
    (package_name m v : String)
    (hc : env.constraints = some m)
    (hv : (splitChar '\n' m.data).findSome? (lineVersion (pyLower package_name).data)
        = some v) :
    pin env tbl package_name = _remap_version tbl (pyLower package_name) v := by
  simp only [pin, _get_version_from_constraints, hc]
  rw [pyLower_idem, findInLines_eq_findSome?, hv]

/-- C3 witness: a manifest with a single numpy line pins numpy to that
line's version under the empty remapping table. -/
theorem pin_first_prefix_line_witness :
    pin ⟨some "numpy==1.24.3", fun _ => none⟩ [] "numpy" = "1.24.3" :=
  (pin_first_prefix_line ⟨some "numpy==1.24.3", fun _ => none⟩ []
    "numpy" "numpy==1.24.3" "1.24.3" rfl (by rfl)).trans (by rfl)

/-- The remapping loop picks the replacement of the first
pattern-replacement pair whose pattern re.match accepts. -/
theorem remapLoop_eq_find? (version : String) :
    ∀ l : List (String × String),
      remapLoop version l
        = (l.find? (fun pr => regexMatch pr.1 version)).map Prod.snd
  | [] => rfl
  | (p, r) :: rest => by
      by_cases h : regexMatch p version <;>
        simp [remapLoop, List.find?_cons, h, remapLoop_eq_find? version rest]

/-- C4 counterexample: the first remapping pass is a regex match
anchored at the start of the version, not an exact string match: the
pattern 1.2 intercepts version 1.23 because a regex match may cover a
proper initial segment, and the pattern 8.12.2 intercepts the version
8a12b2c because the dot matches any character; under exact string
matching both versions would have been returned unchanged. -/
theorem remap_version_not_exact_counterexample :
    _remap_version [("pkg", [("1.2", "x")])] "pkg" "1.23" = "x" ∧
    ("x" : String) ≠ "1.23" ∧
    _remap_version [("pkg", [("8.12.2", "y")])] "pkg" "8a12b2c" = "y" ∧
    ("y" : String) ≠ "8a12b2c" := by
  refine ⟨?_, by decide, ?_, by decide⟩ <;>
    simp [_remap_version, assocFind, remapLoop, regexMatch, reMatch, charMatchP]

/-- C4 (amended): the remapping applies the registered
pattern-replacement pairs of the package in table order under re.match
(anchored at the start, allowed to cover an initial segment, dot
matching any character); the first matching pattern wins, and when no
pattern matches the version is looked up as an exact dict key,
defaulting to the version unchanged. -/
theorem remap_version_first_regex (tbl : RemapTable) (package version : String) :
    _remap_version tbl package version =
      match ((assocFind tbl package).getD []).find?
          (fun pr => regexMatch pr.1 version) with
      | some pr => pr.2
      | none =>
          (assocFind ((assocFind tbl package).getD []) version).getD version := by
  simp only [_remap_version]
  rw [remapLoop_eq_find?]
  cases ((assocFind tbl package).getD []).find? (fun pr => regexMatch pr.1 version) <;>
    simp

/-- C5: pin_minor truncates a resolved version 1.2.3 to 1.2, passes the
literal stable through unchanged, and signals a ValueError naming the
package and version whenever the resolved version does not match the
numeric MAJOR.MINOR pattern. -/
theorem pin_minor_cases (env : PinEnv) (tbl : RemapTable) (package_name : String) :
    (pin env tbl package_name = "1.2.3" →
      pin_minor env tbl package_name = Except.ok "1.2") ∧
    (pin env tbl package_name = "stable" →
      pin_minor env tbl package_name = Except.ok "stable") ∧
    (∀ v, pin env tbl package_name = v → v ≠ "stable" → matchMajorMinor v = none →
      pin_minor env tbl package_name
        = Except.error ("Could not find documentation for " ++ package_name
            ++ " v" ++ v)) := by
  refine ⟨?_, ?_, ?_⟩
  · intro h
    simp only [pin_minor, h]
    rfl
  · intro h
    simp [pin_minor, h]
  · intro v hv hs hm
    simp only [pin_minor, hv, hm]
    rw [if_neg hs]

/-- C5 witness: the three behaviors at concrete environments: a
manifest pinning 1.2.3 truncates to 1.2, an absent package resolves to
stable and passes through, and a manifest pinning the non-numeric
version abc raises the documented ValueError. -/
theorem pin_minor_cases_witness :
    pin_minor ⟨some "pkg==1.2.3", fun _ => none⟩ [] "pkg" = Except.ok "1.2" ∧
    pin_minor ⟨none, fun _ => none⟩ [] "ghost-package" = Except.ok "stable" ∧
    pin_minor ⟨some "pkg==abc", fun _ => none⟩ [] "pkg"
      = Except.error "Could not find documentation for pkg vabc" := by
  refine ⟨(pin_minor_cases ⟨some "pkg==1.2.3", fun _ => none⟩ [] "pkg").1 (by rfl),
    (pin_minor_cases ⟨none, fun _ => none⟩ [] "ghost-package").2.1 (by rfl), ?_⟩
  have h := (pin_minor_cases ⟨some "pkg==abc", fun _ => none⟩ [] "pkg").2.2 "abc"
    (by rfl) (by decide) (by rfl)
  rw [h]
  rfl

end SphinxApiRelink
